import Mathlib

/-!
Verification development for the `httpclient` package of gpt-load
(`internal/httpclient/manager.go`).

The embedding models:

* `Config.getFingerprint`: the Go code renders the configuration with
  `fmt.Sprintf("ct:%.0fs|rt:%.0fs|it:%.0fs|mic:%d|mich:%d|rht:%.0fs|dc:%t|wbs:%d|rbs:%d|fh2:%t|tlst:%.0fs|ect:%.0fs|proxy:%s|ptls:%t", ...)`.
  Durations are Go `time.Duration` values (an `int64` count of nanoseconds),
  printed via `Duration.Seconds()` (a `float64`) and the `%.0f` verb, and a
  leading `-` is printed for negative values (so `-0` is possible).  This is a
  double rounding: `Seconds()` computes `float64(sec) + float64(nsec)/1e9`
  (each operation correctly rounded to nearest, ties to even), and `%.0f`
  rounds the exact value of the resulting `float64` to the nearest integer,
  ties to even.  We model a duration as an `Int` of nanoseconds and replay
  this pipeline exactly in integer arithmetic (`goSecondsPrint`): on the whole
  `int64` domain `|sec| < 2^34 < 2^53`, so `float64(sec)` is exact, and the
  remaining two float roundings are reproduced as round-half-to-even onto the
  binade grids `2^(e-52)`; the final decimal step is round-half-to-even of the
  float's exact (dyadic) value.  Both model and program are odd functions of
  the duration, so the sign is carried separately.
* `HTTPClientManager.GetClient`: the cache with double-checked locking.  The
  sequential model `getClient` performs the lookup/build/insert; the
  interleaved model `stepSys`/`runSys` exposes the two atomic lock-protected
  sections (the `RLock` read check and the `Lock` write section) of each
  caller and lets an arbitrary schedule order them.
* `logrus.Warnf` side effects are modelled as an emitted list of `Warning`
  values; client pointer identity is modelled by a fresh `Nat` id allocated
  at each construction; `url.Parse` (Go standard library, outside this
  repository) is an abstract parameter `parse : String → Option U`.
-/

/-- The ten decimal digit characters, as produced by `Nat.digitChar` on
arguments `< 10`; used to render numbers the way Go's `%d`/`%.0f` do. -/
def decimalDigits : List Char := ['0', '1', '2', '3', '4', '5', '6', '7', '8', '9']

/-- Fuel-indexed most-significant-first decimal rendering of a natural
number; structural recursion on the fuel so that the kernel can evaluate it. -/
def natCharsAux : Nat → Nat → List Char
  | 0, _ => []
  | fuel + 1, n =>
    if n < 10 then [Nat.digitChar n]
    else natCharsAux fuel (n / 10) ++ [Nat.digitChar (n % 10)]

/-- Decimal rendering of a natural number, e.g. `natChars 120 = ['1','2','0']`;
matches Go's `%d` on nonnegative values. -/
def natChars (n : Nat) : List Char := natCharsAux (n + 1) n

/-- Decimal value of a digit string (used only to prove `natChars` injective). -/
def valOfChars (l : List Char) : Nat :=
  l.foldl (fun a c => 10 * a + (c.toNat - 48)) 0

/-- Decimal rendering of an integer; matches Go's `%d`. -/
def intChars (i : Int) : List Char :=
  (if i < 0 then ['-'] else []) ++ natChars i.natAbs

/-- `roundHalfEvenNat n d` is `n / d` rounded to the nearest integer with
ties to even — the rounding used by each stage of the `float64` pipeline
(correctly rounded division and addition, and decimal formatting). -/
def roundHalfEvenNat (n d : Nat) : Nat :=
  let q := n / d
  let r := n % d
  if 2 * r < d then q
  else if d < 2 * r then q + 1
  else if q % 2 = 0 then q else q + 1

/-- Nanoseconds per second (`time.Second`). -/
def nsPerSec : Nat := 1000000000

/-- Fuel-indexed floor of the base-2 logarithm (`0` for `n < 2`);
structural recursion on the fuel so that the kernel can evaluate it. -/
def log2Aux : Nat → Nat → Nat
  | 0, _ => 0
  | fuel + 1, n => if n < 2 then 0 else log2Aux fuel (n / 2) + 1

/-- Floor of the base-2 logarithm of `n` (`0` for `n < 2`). -/
def floorLog2 (n : Nat) : Nat := log2Aux n n

/-- Smallest `j` (starting from the accumulator) with `m * 2^j ≥ 10^9`,
searched with fuel: for `m ∈ [1, 10^9)` this is the `j ∈ [1, 30]` with
`m / 10^9 ∈ [2^(-j), 2^(-j+1))`, the binade of the fractional seconds. -/
def secExpAux : Nat → Nat → Nat → Nat
  | 0, _, j => j
  | fuel + 1, m, j => if nsPerSec ≤ m * 2 ^ j then j else secExpAux fuel m (j + 1)

/-- Binade exponent (negated) of `nsec / 10^9` for `nsec ∈ [1, 10^9)`. -/
def secExp (m : Nat) : Nat := secExpAux 31 m 1

/-- The integer printed by Go's `%.0f` for `Seconds()` of a duration of
`n` nanoseconds (`n = |d|`, `n < 2^63`), replaying the double rounding
exactly: `Seconds()` is `float64(sec) + float64(nsec)/1e9` with
`sec = n / 10^9` and `nsec = n % 10^9`.  `float64(sec)` is exact
(`sec < 2^34`); the division rounds `nsec/10^9` half-to-even onto the grid
`2^(-j-52)` of its binade (`f3 = k / 2^(52+j)`); the addition rounds
`sec + f3` half-to-even onto the grid `2^(E-52)` of its binade
(`f4 = m / 2^(52-E)`); and the `%.0f` formatting rounds the exact value of
`f4` to the nearest integer, ties to even. -/
def goSecondsPrint (n : Nat) : Nat :=
  let sec := n / nsPerSec
  let nsec := n % nsPerSec
  if nsec = 0 then sec
  else
    let j := secExp nsec
    let k := roundHalfEvenNat (nsec * 2 ^ (52 + j)) nsPerSec
    if sec = 0 then
      roundHalfEvenNat k (2 ^ (52 + j))
    else
      let num := sec * 2 ^ (52 + j) + k
      let E := floorLog2 num - (52 + j)
      let m := roundHalfEvenNat num (2 ^ (j + E))
      roundHalfEvenNat m (2 ^ (52 - E))

/-- The whole-second magnitude printed by `%.0f` for the `Seconds()` of a
duration of `d.natAbs` nanoseconds (double rounding through `float64`
included). -/
def roundSec (d : Int) : Nat := goSecondsPrint d.natAbs

/-- `2^63`: Go's `time.Duration` is an `int64`, so program durations `d`
satisfy `|d| < 2^63`. -/
def int64Bound : Int := 9223372036854775808

/-- Rendering of `fmt.Sprintf("%.0f", d.Seconds())` for a duration of `d`
nanoseconds: sign of `d`, then the whole-second magnitude after the
`Seconds()`/`%.0f` double rounding.  A negative duration that rounds to
zero prints as `-0`, as in Go. -/
def secChars (d : Int) : List Char :=
  (if d < 0 then ['-'] else []) ++ natChars (roundSec d)

/-- Rendering of Go's `%t` verb. -/
def boolChars (b : Bool) : List Char :=
  if b then "true".data else "false".data

/-- `Config` from `internal/httpclient/manager.go`.  Durations are `Int`
nanosecond counts (Go `time.Duration`). -/
structure Config where
  ConnectTimeout : Int
  RequestTimeout : Int
  IdleConnTimeout : Int
  MaxIdleConns : Int
  MaxIdleConnsPerHost : Int
  ResponseHeaderTimeout : Int
  DisableCompression : Bool
  WriteBufferSize : Int
  ReadBufferSize : Int
  ForceAttemptHTTP2 : Bool
  TLSHandshakeTimeout : Int
  ExpectContinueTimeout : Int
  ProxyURL : String
  ProxyTLSSkipVerify : Bool
deriving DecidableEq

/-- A `tag:%.0fs` segment of the fingerprint. -/
def durSeg (tag : List Char) (d : Int) : List Char := tag ++ secChars d ++ ['s']

/-- A `tag:%d` segment of the fingerprint. -/
def intSeg (tag : List Char) (i : Int) : List Char := tag ++ intChars i

/-- A `tag:%t` segment of the fingerprint. -/
def boolSeg (tag : List Char) (b : Bool) : List Char := tag ++ boolChars b

/-- The character stream produced by `Config.getFingerprint`'s `Sprintf`
call, segment by segment in the order of the Go format string. -/
def fingerChars (c : Config) : List Char :=
  durSeg "ct:".data c.ConnectTimeout ++ '|' ::
  (durSeg "rt:".data c.RequestTimeout ++ '|' ::
  (durSeg "it:".data c.IdleConnTimeout ++ '|' ::
  (intSeg "mic:".data c.MaxIdleConns ++ '|' ::
  (intSeg "mich:".data c.MaxIdleConnsPerHost ++ '|' ::
  (durSeg "rht:".data c.ResponseHeaderTimeout ++ '|' ::
  (boolSeg "dc:".data c.DisableCompression ++ '|' ::
  (intSeg "wbs:".data c.WriteBufferSize ++ '|' ::
  (intSeg "rbs:".data c.ReadBufferSize ++ '|' ::
  (boolSeg "fh2:".data c.ForceAttemptHTTP2 ++ '|' ::
  (durSeg "tlst:".data c.TLSHandshakeTimeout ++ '|' ::
  (durSeg "ect:".data c.ExpectContinueTimeout ++ '|' ::
  ("proxy:".data ++ c.ProxyURL.data ++ "|ptls:".data ++
    boolChars c.ProxyTLSSkipVerify))))))))))))

/-- `Config.getFingerprint` from `manager.go`. -/
def Config.getFingerprint (c : Config) : String := String.mk (fingerChars c)

/-- A warning-level log event (`logrus.Warnf`) emitted during client
construction. -/
inductive Warning where
  /-- "Proxy TLS certificate verification is disabled - ..." -/
  | proxyTLS : Warning
  /-- "Invalid proxy URL '%s' provided, falling back to environment
  settings: %v" — carries the offending `ProxyURL` value. -/
  | invalidProxyURL (value : String) : Warning
deriving DecidableEq

/-- The `Proxy` field of the transport: either `http.ProxyFromEnvironment`
or `http.ProxyURL(u)` for a parsed URL `u` (of abstract type `U`, since
`url.Parse` belongs to the Go standard library). -/
inductive ProxyMode (U : Type) where
  | fromEnvironment : ProxyMode U
  | url (u : U) : ProxyMode U
deriving DecidableEq

/-- The part of `tls.Config` the code sets. -/
structure TLSConf where
  InsecureSkipVerify : Bool
deriving DecidableEq

/-- The `http.Transport` fields set by `GetClient`.  `TLSClientConfig` is
`none` when the Go code leaves it `nil` (default certificate verification);
it is a transport-wide setting of `http.Transport`. -/
structure Transport (U : Type) where
  DialTimeout : Int
  DialKeepAlive : Int
  ForceAttemptHTTP2 : Bool
  MaxIdleConns : Int
  MaxIdleConnsPerHost : Int
  IdleConnTimeout : Int
  TLSHandshakeTimeout : Int
  ExpectContinueTimeout : Int
  ResponseHeaderTimeout : Int
  DisableCompression : Bool
  WriteBufferSize : Int
  ReadBufferSize : Int
  TLSClientConfig : Option TLSConf
  Proxy : ProxyMode U
deriving DecidableEq

/-- An `*http.Client`: `id` models pointer identity (a fresh id is
allocated at each `&http.Client{...}` construction). -/
structure ClientObj (U : Type) where
  id : Nat
  Transport : Transport U
  Timeout : Int
deriving DecidableEq

/-- State of an `HTTPClientManager`: the fingerprint→client map (as an
association list, newest entry first) and the next fresh pointer id. -/
structure ManagerState (U : Type) where
  clients : List (String × ClientObj U)
  nextId : Nat
deriving DecidableEq

/-- `NewHTTPClientManager`: empty map. -/
def newHTTPClientManager (U : Type) : ManagerState U := ⟨[], 0⟩

/-- Map lookup (`m.clients[fingerprint]`). -/
def findClient {U : Type} : List (String × ClientObj U) → String → Option (ClientObj U)
  | [], _ => none
  | (k, v) :: rest, key => if k = key then some v else findClient rest key

/-- The transport/client construction on the cache-miss path of
`GetClient` (lines 73–116 of `manager.go`): the transport literal, the
`ProxyTLSSkipVerify` branch, the proxy branch, and the `&http.Client`
literal.  Returns the new client together with the warnings emitted, in
emission order.  `parse` stands for `url.Parse`, returning `none` exactly
when Go returns a non-nil error. -/
def buildClient {U : Type} (parse : String → Option U) (config : Config) (id : Nat) :
    ClientObj U × List Warning :=
  let transport0 : Transport U :=
    { DialTimeout := config.ConnectTimeout
      DialKeepAlive := 30 * (nsPerSec : Int)
      ForceAttemptHTTP2 := config.ForceAttemptHTTP2
      MaxIdleConns := config.MaxIdleConns
      MaxIdleConnsPerHost := config.MaxIdleConnsPerHost
      IdleConnTimeout := config.IdleConnTimeout
      TLSHandshakeTimeout := config.TLSHandshakeTimeout
      ExpectContinueTimeout := config.ExpectContinueTimeout
      ResponseHeaderTimeout := config.ResponseHeaderTimeout
      DisableCompression := config.DisableCompression
      WriteBufferSize := config.WriteBufferSize
      ReadBufferSize := config.ReadBufferSize
      TLSClientConfig := none
      Proxy := ProxyMode.fromEnvironment }
  let step1 : Transport U × List Warning :=
    if config.ProxyTLSSkipVerify then
      ({ transport0 with TLSClientConfig := some { InsecureSkipVerify := true } },
       [Warning.proxyTLS])
    else (transport0, [])
  let step2 : Transport U × List Warning :=
    if config.ProxyURL = "" then
      ({ step1.1 with Proxy := ProxyMode.fromEnvironment }, [])
    else
      match parse config.ProxyURL with
      | some u => ({ step1.1 with Proxy := ProxyMode.url u }, [])
      | none =>
        ({ step1.1 with Proxy := ProxyMode.fromEnvironment },
         [Warning.invalidProxyURL config.ProxyURL])
  (⟨id, step2.1, config.RequestTimeout⟩, step1.2 ++ step2.2)

/-- The observable outcome of one `GetClient` call: the returned client,
whether the factory branch ran, and the warnings logged during the call. -/
structure CallResult (U : Type) where
  client : ClientObj U
  built : Bool
  warnings : List Warning
deriving DecidableEq

/-- `HTTPClientManager.GetClient`, sequential semantics: compute the
fingerprint, look it up, and on a miss build, insert and return.  (Under
the sequential semantics the read-locked check and the write-locked
re-check collapse into one lookup; the interleaved semantics below keeps
them separate.) -/
def getClient {U : Type} (parse : String → Option U) (m : ManagerState U)
    (config : Config) : CallResult U × ManagerState U :=
  match findClient m.clients config.getFingerprint with
  | some client => (⟨client, false, []⟩, m)
  | none =>
    let built := buildClient parse config m.nextId
    (⟨built.1, true, built.2⟩,
     ⟨(config.getFingerprint, built.1) :: m.clients, m.nextId + 1⟩)

/-- Program counter of one caller in the interleaved model of `GetClient`.
A caller performs at most two atomic sections: the `RLock`-protected read
check, then (on a miss) the `Lock`-protected section of re-check, build
and insert. -/
inductive CallerPhase (U : Type) where
  /-- has not yet run its read-locked check -/
  | start : CallerPhase U
  /-- read check missed; waiting for the write lock -/
  | waitingWrite : CallerPhase U
  /-- returned with this client -/
  | done (client : ClientObj U) : CallerPhase U
deriving DecidableEq

/-- `true` iff the caller has returned. -/
def CallerPhase.isDone {U : Type} : CallerPhase U → Bool
  | .done _ => true
  | _ => false

/-- Global state of the interleaved execution: the manager, one
`(config, phase)` pair per caller, and the number of factory invocations
(client constructions) so far. -/
structure SysState (U : Type) where
  mgr : ManagerState U
  callers : List (Config × CallerPhase U)
  builds : Nat
deriving DecidableEq

/-- The `RLock`-protected read check of caller `i` (lines 56–61 of
`manager.go`): a hit finishes the caller, a miss sends it to the write
lock. -/
def stepRead {U : Type} (st : SysState U) (i : Nat) (config : Config) : SysState U :=
  match findClient st.mgr.clients config.getFingerprint with
  | some c => { st with callers := st.callers.set i (config, .done c) }
  | none => { st with callers := st.callers.set i (config, .waitingWrite) }

/-- The `Lock`-protected section of caller `i` (lines 64–117 of
`manager.go`): re-check, and on a still-miss build, insert and return. -/
def stepWrite {U : Type} (parse : String → Option U) (st : SysState U) (i : Nat)
    (config : Config) : SysState U :=
  match findClient st.mgr.clients config.getFingerprint with
  | some c => { st with callers := st.callers.set i (config, .done c) }
  | none =>
    let built := buildClient parse config st.mgr.nextId
    { mgr := ⟨(config.getFingerprint, built.1) :: st.mgr.clients, st.mgr.nextId + 1⟩
      callers := st.callers.set i (config, .done built.1)
      builds := st.builds + 1 }

/-- One atomic step of caller `i` of `GetClient`: its read-locked lookup
if it has not run yet, otherwise its write-locked re-check/build/insert
section.  Steps of finished or out-of-range callers do nothing. -/
def stepSys {U : Type} (parse : String → Option U) (st : SysState U) (i : Nat) :
    SysState U :=
  match st.callers.get? i with
  | none => st
  | some (config, .start) => stepRead st i config
  | some (config, .waitingWrite) => stepWrite parse st i config
  | some (_, .done _) => st

/-- Run a schedule (a list of caller indices, each entry one atomic step). -/
def runSys {U : Type} (parse : String → Option U) (st : SysState U)
    (sched : List Nat) : SysState U :=
  sched.foldl (stepSys parse) st

/-- Initial interleaved state: every caller at `start`, no builds yet. -/
def initSys {U : Type} (m : ManagerState U) (cfgs : List Config) : SysState U :=
  ⟨m, cfgs.map (fun c => (c, CallerPhase.start)), 0⟩

/-- Number of `invalidProxyURL` warnings in an emission list. -/
def countProxyWarn (l : List Warning) : Nat :=
  l.countP (fun w => match w with | .invalidProxyURL _ => true | _ => false)

/-- Number of `proxyTLS` warnings in an emission list. -/
def countTLSWarn (l : List Warning) : Nat :=
  l.countP (fun w => match w with | .proxyTLS => true | _ => false)

/-- Every caller of the interleaved run uses a configuration whose
fingerprint is `f`. -/
def AllFp {U : Type} (f : String) (cs : List (Config × CallerPhase U)) : Prop :=
  ∀ p ∈ cs, Config.getFingerprint p.1 = f

/-- No caller has returned yet. -/
def NoneDone {U : Type} (cs : List (Config × CallerPhase U)) : Prop :=
  ∀ p ∈ cs, p.2.isDone = false

/-- Every caller that has returned received the client `c0`. -/
def DoneImp {U : Type} (c0 : ClientObj U) (cs : List (Config × CallerPhase U)) : Prop :=
  ∀ p ∈ cs, ∀ cl, p.2 = CallerPhase.done cl → cl = c0

/-- Invariant of the interleaved execution when every caller's
configuration fingerprints to `f` and the cache initially lacks `f`:
either nothing has been built yet (and nobody has returned), or exactly
one client has been built, it is cached under `f`, and every finished
caller got it. -/
def InvC1 {U : Type} (f : String) (st : SysState U) : Prop :=
  AllFp f st.callers ∧
  ((findClient st.mgr.clients f = none ∧ st.builds = 0 ∧ NoneDone st.callers) ∨
    (∃ c0, findClient st.mgr.clients f = some c0 ∧ st.builds = 1 ∧
      DoneImp c0 st.callers))

/-- The configuration of the spec's scenario: connect 15s, request 600s,
idle 120s, empty proxy, all other fields zero / false. -/
def cfgScenario : Config :=
  { ConnectTimeout := 15 * (nsPerSec : Int)
    RequestTimeout := 600 * (nsPerSec : Int)
    IdleConnTimeout := 120 * (nsPerSec : Int)
    MaxIdleConns := 0
    MaxIdleConnsPerHost := 0
    ResponseHeaderTimeout := 0
    DisableCompression := false
    WriteBufferSize := 0
    ReadBufferSize := 0
    ForceAttemptHTTP2 := false
    TLSHandshakeTimeout := 0
    ExpectContinueTimeout := 0
    ProxyURL := ""
    ProxyTLSSkipVerify := false }

/-- `cfgScenario` with the idle timeout changed to 121s. -/
def cfgScenario121 : Config :=
  { cfgScenario with IdleConnTimeout := 121 * (nsPerSec : Int) }

/-- `cfgScenario` with idle timeout 0.4s (sub-second only). -/
def cfgSubA : Config :=
  { cfgScenario with IdleConnTimeout := 400000000 }

/-- `cfgScenario` with idle timeout 0.6s (sub-second only). -/
def cfgSubB : Config :=
  { cfgScenario with IdleConnTimeout := 600000000 }

/-- `cfgScenario` with connect timeout 1.5s. -/
def cfgHalfA : Config :=
  { cfgScenario with ConnectTimeout := 1500000000 }

/-- `cfgScenario` with connect timeout 2.5s — a full second more than
`cfgHalfA`. -/
def cfgHalfB : Config :=
  { cfgScenario with ConnectTimeout := 2500000000 }

/-- `cfgScenario` with the malformed proxy address from the spec. -/
def cfgBadProxy : Config :=
  { cfgScenario with ProxyURL := "http://%zz" }

/-- `cfgScenario` with `ProxyTLSSkipVerify` enabled. -/
def cfgSkip : Config :=
  { cfgScenario with ProxyTLSSkipVerify := true }

/-- `cfgScenario` with idle timeout 0.7s (rounds to 1s, like 0.6s). -/
def cfgSubC : Config :=
  { cfgScenario with IdleConnTimeout := 700000000 }

/-- `cfgScenario` with a proxy URL containing the separator and tag text
of the fingerprint format. -/
def cfgTagProxy : Config :=
  { cfgScenario with ProxyURL := "p|ptls:true" }

/-- An abstract `url.Parse` that rejects every input (used for witnesses
exercising the failure branch). -/
def parseNone : String → Option Unit := fun _ => none

/-- An abstract `url.Parse` that accepts every input. -/
def parseAll : String → Option Unit := fun _ => some ()

theorem digitChar_toNat_of_lt (n : Nat) (h : n < 10) :
    (Nat.digitChar n).toNat = 48 + n := by
  interval_cases n <;> rfl

theorem valOfChars_append_single (xs : List Char) (c : Char) :
    valOfChars (xs ++ [c]) = 10 * valOfChars xs + (c.toNat - 48) := by
  simp [valOfChars, List.foldl_append]

theorem valOfChars_natCharsAux (fuel n : Nat) (h : n < fuel) :
    valOfChars (natCharsAux fuel n) = n := by
  induction fuel generalizing n with
  | zero => omega
  | succ fuel ih =>
    by_cases h10 : n < 10
    · simp only [natCharsAux, if_pos h10, valOfChars, List.foldl]
      rw [digitChar_toNat_of_lt n h10]
      omega
    · have hdiv : n / 10 < fuel := by omega
      simp only [natCharsAux, if_neg h10]
      rw [valOfChars_append_single, ih _ hdiv,
        digitChar_toNat_of_lt (n % 10) (Nat.mod_lt _ (by omega))]
      omega

theorem valOfChars_natChars (n : Nat) : valOfChars (natChars n) = n :=
  valOfChars_natCharsAux (n + 1) n (Nat.lt_succ_self n)

theorem natChars_inj {a b : Nat} (h : natChars a = natChars b) : a = b := by
  have := congrArg valOfChars h
  rwa [valOfChars_natChars, valOfChars_natChars] at this

theorem natCharsAux_toNat_range (fuel n : Nat) (c : Char)
    (hc : c ∈ natCharsAux fuel n) : 48 ≤ c.toNat ∧ c.toNat ≤ 57 := by
  induction fuel generalizing n with
  | zero => simp [natCharsAux] at hc
  | succ fuel ih =>
    by_cases h10 : n < 10
    · simp only [natCharsAux, if_pos h10, List.mem_singleton] at hc
      subst hc
      rw [digitChar_toNat_of_lt n h10]
      omega
    · simp only [natCharsAux, if_neg h10, List.mem_append, List.mem_singleton] at hc
      rcases hc with hc | hc
      · exact ih _ hc
      · subst hc
        rw [digitChar_toNat_of_lt (n % 10) (Nat.mod_lt _ (by omega))]
        omega

theorem natChars_toNat_range (n : Nat) (c : Char) (hc : c ∈ natChars n) :
    48 ≤ c.toNat ∧ c.toNat ≤ 57 :=
  natCharsAux_toNat_range (n + 1) n c hc

theorem intChars_inj {i j : Int} (h : intChars i = intChars j) : i = j := by
  by_cases hi : i < 0 <;> by_cases hj : j < 0
  · simp only [intChars, if_pos hi, if_pos hj, List.cons_append, List.nil_append,
      List.cons.injEq, true_and] at h
    have := natChars_inj h
    omega
  · exfalso
    simp only [intChars, if_pos hi, if_neg hj, List.cons_append, List.nil_append] at h
    have hm : '-' ∈ natChars j.natAbs := h ▸ List.mem_cons_self '-' _
    exact absurd (natChars_toNat_range j.natAbs '-' hm) (by decide)
  · exfalso
    simp only [intChars, if_neg hi, if_pos hj, List.cons_append, List.nil_append] at h
    have hm : '-' ∈ natChars i.natAbs := h ▸ List.mem_cons_self '-' _
    exact absurd (natChars_toNat_range i.natAbs '-' hm) (by decide)
  · simp only [intChars, if_neg hi, if_neg hj, List.nil_append] at h
    have := natChars_inj h
    omega

theorem intChars_ne_bar (i : Int) (c : Char) (hc : c ∈ intChars i) : c ≠ '|' := by
  intro he
  subst he
  simp only [intChars, List.mem_append] at hc
  rcases hc with hc | hc
  · by_cases hi : i < 0 <;> simp [if_pos, if_neg, hi] at hc
  · exact absurd (natChars_toNat_range i.natAbs '|' hc) (by decide)

theorem secChars_ne_bar (d : Int) (c : Char) (hc : c ∈ secChars d) : c ≠ '|' := by
  intro he
  subst he
  simp only [secChars, List.mem_append] at hc
  rcases hc with hc | hc
  · by_cases hd : d < 0 <;> simp [if_pos, if_neg, hd] at hc
  · exact absurd (natChars_toNat_range (roundSec d) '|' hc) (by decide)

theorem secChars_eq_iff_of_nonneg {d e : Int} (hd : 0 ≤ d) (he : 0 ≤ e) :
    secChars d = secChars e ↔ roundSec d = roundSec e := by
  constructor
  · intro h
    simp only [secChars, if_neg (by omega : ¬d < 0), if_neg (by omega : ¬e < 0),
      List.nil_append] at h
    exact natChars_inj h
  · intro h
    simp only [secChars, if_neg (by omega : ¬d < 0), if_neg (by omega : ¬e < 0), h]

theorem boolChars_inj {a b : Bool} (h : boolChars a = boolChars b) : a = b := by
  cases a <;> cases b <;> first | rfl | simp [boolChars] at h

theorem boolChars_ne_bar (b : Bool) (c : Char) (hc : c ∈ boolChars b) : c ≠ '|' := by
  intro he
  subst he
  cases b
  · exact absurd hc (by decide)
  · exact absurd hc (by decide)

theorem durSeg_ne_bar (tag : List Char) (htag : ∀ c ∈ tag, c ≠ '|') (d : Int) :
    ∀ c ∈ durSeg tag d, c ≠ '|' := by
  intro c hc
  simp only [durSeg, List.append_assoc, List.mem_append, List.mem_singleton] at hc
  rcases hc with hc | hc | hc
  · exact htag c hc
  · exact secChars_ne_bar d c hc
  · subst hc; decide

theorem intSeg_ne_bar (tag : List Char) (htag : ∀ c ∈ tag, c ≠ '|') (i : Int) :
    ∀ c ∈ intSeg tag i, c ≠ '|' := by
  intro c hc
  simp only [intSeg, List.mem_append] at hc
  rcases hc with hc | hc
  · exact htag c hc
  · exact intChars_ne_bar i c hc

theorem boolSeg_ne_bar (tag : List Char) (htag : ∀ c ∈ tag, c ≠ '|') (b : Bool) :
    ∀ c ∈ boolSeg tag b, c ≠ '|' := by
  intro c hc
  simp only [boolSeg, List.mem_append] at hc
  rcases hc with hc | hc
  · exact htag c hc
  · exact boolChars_ne_bar b c hc

/-- Two `'|'`-terminated blocks whose heads avoid `'|'` split uniquely at
the first `'|'`. -/
theorem splitAtBar {a r : List Char} :
    ∀ {b r' : List Char}, (∀ c ∈ a, c ≠ '|') → (∀ c ∈ b, c ≠ '|') →
      a ++ '|' :: r = b ++ '|' :: r' → a = b ∧ r = r' := by
  induction a with
  | nil =>
    intro b r' _ hb h
    cases b with
    | nil => simpa using h
    | cons y ys =>
      exfalso
      simp only [List.nil_append, List.cons_append, List.cons.injEq] at h
      exact hb y (List.mem_cons_self y ys) h.1.symm
  | cons x xs ih =>
    intro b r' ha hb h
    cases b with
    | nil =>
      exfalso
      simp only [List.cons_append, List.nil_append, List.cons.injEq] at h
      exact ha x (List.mem_cons_self x xs) h.1
    | cons y ys =>
      simp only [List.cons_append, List.cons.injEq] at h
      obtain ⟨hxy, htail⟩ := h
      have hxs : ∀ c ∈ xs, c ≠ '|' := fun c hc => ha c (List.mem_cons_of_mem x hc)
      have hys : ∀ c ∈ ys, c ≠ '|' := fun c hc => hb c (List.mem_cons_of_mem y hc)
      obtain ⟨h1, h2⟩ := ih hxs hys htail
      exact ⟨by rw [hxy, h1], h2⟩

theorem durSeg_inj {tag : List Char} {d e : Int} (h : durSeg tag d = durSeg tag e) :
    secChars d = secChars e := by
  simp only [durSeg] at h
  have h1 : tag ++ secChars d = tag ++ secChars e :=
    (List.append_inj' h rfl).1
  exact List.append_cancel_left h1

theorem intSeg_inj {tag : List Char} {i j : Int} (h : intSeg tag i = intSeg tag j) :
    i = j :=
  intChars_inj (List.append_cancel_left (h : tag ++ intChars i = tag ++ intChars j))

theorem boolSeg_inj {tag : List Char} {a b : Bool} (h : boolSeg tag a = boolSeg tag b) :
    a = b :=
  boolChars_inj (List.append_cancel_left (h : tag ++ boolChars a = tag ++ boolChars b))

/-- The trailing `proxy:%s|ptls:%t` block determines the proxy string and
the boolean, even when the proxy string contains `'|'` or tag text: the
block after the proxy string has fixed shape `|ptls:true` or
`|ptls:false`, and these differ in their second-to-last character. -/
theorem tailSeg_inj {p1 p2 : String} {b1 b2 : Bool}
    (h : "proxy:".data ++ p1.data ++ "|ptls:".data ++ boolChars b1 =
      "proxy:".data ++ p2.data ++ "|ptls:".data ++ boolChars b2) :
    p1 = p2 ∧ b1 = b2 := by
  simp only [List.append_assoc] at h
  have h2 := List.append_cancel_left h
  have hdata : p1.data = p2.data → p1 = p2 := by
    intro hd
    cases p1
    cases p2
    exact congrArg String.mk hd
  cases b1 <;> cases b2
  · exact ⟨hdata (List.append_cancel_right h2), rfl⟩
  · exfalso
    have h3 := congrArg List.reverse h2
    simp only [List.reverse_append] at h3
    have h4 : 'e' :: 's' :: ("laf:sltp|".data ++ p1.data.reverse) =
        'e' :: 'u' :: ("rt:sltp|".data ++ p2.data.reverse) := h3
    injection h4 with h5 h6
    injection h6 with h7 h8
    exact absurd h7 (by decide)
  · exfalso
    have h3 := congrArg List.reverse h2
    simp only [List.reverse_append] at h3
    have h4 : 'e' :: 'u' :: ("rt:sltp|".data ++ p1.data.reverse) =
        'e' :: 's' :: ("laf:sltp|".data ++ p2.data.reverse) := h3
    injection h4 with h5 h6
    injection h6 with h7 h8
    exact absurd h7 (by decide)
  · exact ⟨hdata (List.append_cancel_right h2), rfl⟩

/-- Decomposition of fingerprint equality: equal fingerprint character
streams force the rendered value of every one of the fourteen fields to
agree (durations up to the `%.0f` rendering, everything else exactly). -/
theorem fingerChars_parts {c1 c2 : Config} (h : fingerChars c1 = fingerChars c2) :
    secChars c1.ConnectTimeout = secChars c2.ConnectTimeout ∧
    secChars c1.RequestTimeout = secChars c2.RequestTimeout ∧
    secChars c1.IdleConnTimeout = secChars c2.IdleConnTimeout ∧
    c1.MaxIdleConns = c2.MaxIdleConns ∧
    c1.MaxIdleConnsPerHost = c2.MaxIdleConnsPerHost ∧
    secChars c1.ResponseHeaderTimeout = secChars c2.ResponseHeaderTimeout ∧
    c1.DisableCompression = c2.DisableCompression ∧
    c1.WriteBufferSize = c2.WriteBufferSize ∧
    c1.ReadBufferSize = c2.ReadBufferSize ∧
    c1.ForceAttemptHTTP2 = c2.ForceAttemptHTTP2 ∧
    secChars c1.TLSHandshakeTimeout = secChars c2.TLSHandshakeTimeout ∧
    secChars c1.ExpectContinueTimeout = secChars c2.ExpectContinueTimeout ∧
    c1.ProxyURL = c2.ProxyURL ∧
    c1.ProxyTLSSkipVerify = c2.ProxyTLSSkipVerify := by
  simp only [fingerChars] at h
  obtain ⟨e1, h⟩ :=
    splitAtBar (durSeg_ne_bar _ (by decide) _) (durSeg_ne_bar _ (by decide) _) h
  obtain ⟨e2, h⟩ :=
    splitAtBar (durSeg_ne_bar _ (by decide) _) (durSeg_ne_bar _ (by decide) _) h
  obtain ⟨e3, h⟩ :=
    splitAtBar (durSeg_ne_bar _ (by decide) _) (durSeg_ne_bar _ (by decide) _) h
  obtain ⟨e4, h⟩ :=
    splitAtBar (intSeg_ne_bar _ (by decide) _) (intSeg_ne_bar _ (by decide) _) h
  obtain ⟨e5, h⟩ :=
    splitAtBar (intSeg_ne_bar _ (by decide) _) (intSeg_ne_bar _ (by decide) _) h
  obtain ⟨e6, h⟩ :=
    splitAtBar (durSeg_ne_bar _ (by decide) _) (durSeg_ne_bar _ (by decide) _) h
  obtain ⟨e7, h⟩ :=
    splitAtBar (boolSeg_ne_bar _ (by decide) _) (boolSeg_ne_bar _ (by decide) _) h
  obtain ⟨e8, h⟩ :=
    splitAtBar (intSeg_ne_bar _ (by decide) _) (intSeg_ne_bar _ (by decide) _) h
  obtain ⟨e9, h⟩ :=
    splitAtBar (intSeg_ne_bar _ (by decide) _) (intSeg_ne_bar _ (by decide) _) h
  obtain ⟨e10, h⟩ :=
    splitAtBar (boolSeg_ne_bar _ (by decide) _) (boolSeg_ne_bar _ (by decide) _) h
  obtain ⟨e11, h⟩ :=
    splitAtBar (durSeg_ne_bar _ (by decide) _) (durSeg_ne_bar _ (by decide) _) h
  obtain ⟨e12, h⟩ :=
    splitAtBar (durSeg_ne_bar _ (by decide) _) (durSeg_ne_bar _ (by decide) _) h
  obtain ⟨hp, hb⟩ := tailSeg_inj h
  exact ⟨durSeg_inj e1, durSeg_inj e2, durSeg_inj e3, intSeg_inj e4, intSeg_inj e5,
    durSeg_inj e6, boolSeg_inj e7, intSeg_inj e8, intSeg_inj e9, boolSeg_inj e10,
    durSeg_inj e11, durSeg_inj e12, hp, hb⟩

/-- Congruence: the fingerprint depends only on the rendered value of each
field. -/
theorem fingerChars_congr {c1 c2 : Config}
    (h1 : secChars c1.ConnectTimeout = secChars c2.ConnectTimeout)
    (h2 : secChars c1.RequestTimeout = secChars c2.RequestTimeout)
    (h3 : secChars c1.IdleConnTimeout = secChars c2.IdleConnTimeout)
    (h4 : c1.MaxIdleConns = c2.MaxIdleConns)
    (h5 : c1.MaxIdleConnsPerHost = c2.MaxIdleConnsPerHost)
    (h6 : secChars c1.ResponseHeaderTimeout = secChars c2.ResponseHeaderTimeout)
    (h7 : c1.DisableCompression = c2.DisableCompression)
    (h8 : c1.WriteBufferSize = c2.WriteBufferSize)
    (h9 : c1.ReadBufferSize = c2.ReadBufferSize)
    (h10 : c1.ForceAttemptHTTP2 = c2.ForceAttemptHTTP2)
    (h11 : secChars c1.TLSHandshakeTimeout = secChars c2.TLSHandshakeTimeout)
    (h12 : secChars c1.ExpectContinueTimeout = secChars c2.ExpectContinueTimeout)
    (h13 : c1.ProxyURL = c2.ProxyURL)
    (h14 : c1.ProxyTLSSkipVerify = c2.ProxyTLSSkipVerify) :
    fingerChars c1 = fingerChars c2 := by
  simp only [fingerChars, durSeg, intSeg, boolSeg, h1, h2, h3, h4, h5, h6, h7, h8,
    h9, h10, h11, h12, h13, h14]

/-- Fingerprint equality at the `String` level is equality of the
character streams. -/
theorem getFingerprint_eq_iff {c1 c2 : Config} :
    c1.getFingerprint = c2.getFingerprint ↔ fingerChars c1 = fingerChars c2 := by
  constructor
  · intro h
    injection h
  · intro h
    simp only [Config.getFingerprint, h]

theorem findClient_cons_self {U : Type} (k : String) (v : ClientObj U)
    (rest : List (String × ClientObj U)) : findClient ((k, v) :: rest) k = some v := by
  simp [findClient]

theorem getClient_hit {U : Type} (parse : String → Option U) (m : ManagerState U)
    (c : Config) (cl : ClientObj U)
    (h : findClient m.clients c.getFingerprint = some cl) :
    getClient parse m c = (⟨cl, false, []⟩, m) := by
  unfold getClient
  rw [h]

theorem getClient_miss {U : Type} (parse : String → Option U) (m : ManagerState U)
    (c : Config) (h : findClient m.clients c.getFingerprint = none) :
    getClient parse m c =
      (⟨(buildClient parse c m.nextId).1, true, (buildClient parse c m.nextId).2⟩,
        ⟨(c.getFingerprint, (buildClient parse c m.nextId).1) :: m.clients,
          m.nextId + 1⟩) := by
  unfold getClient
  rw [h]

/-- After any `getClient` call the returned client is cached under the
configuration's fingerprint. -/
theorem getClient_post_lookup {U : Type} (parse : String → Option U)
    (m : ManagerState U) (c : Config) :
    findClient ((getClient parse m c).2).clients c.getFingerprint =
      some ((getClient parse m c).1.client) := by
  cases h : findClient m.clients c.getFingerprint with
  | some cl => rw [getClient_hit parse m c cl h]; exact h
  | none => rw [getClient_miss parse m c h]; exact findClient_cons_self _ _ _

theorem AllFp_set {U : Type} {f : String} {cs : List (Config × CallerPhase U)}
    {i : Nat} {config : Config} {phase ph' : CallerPhase U}
    (hfp : AllFp f cs) (hget : cs.get? i = some (config, phase)) :
    AllFp f (cs.set i (config, ph')) := by
  intro p hp
  rcases List.mem_or_eq_of_mem_set hp with h | h
  · exact hfp _ h
  · subst h
    exact hfp (config, phase) (List.get?_mem hget)

theorem NoneDone_set {U : Type} {cs : List (Config × CallerPhase U)} {i : Nat}
    {x : Config × CallerPhase U} (hnd : NoneDone cs) (hx : x.2.isDone = false) :
    NoneDone (cs.set i x) := by
  intro p hp
  rcases List.mem_or_eq_of_mem_set hp with h | h
  · exact hnd _ h
  · subst h
    exact hx

theorem DoneImp_set {U : Type} {c0 : ClientObj U}
    {cs : List (Config × CallerPhase U)} {i : Nat} {x : Config × CallerPhase U}
    (hdi : DoneImp c0 cs) (hx : ∀ cl, x.2 = CallerPhase.done cl → cl = c0) :
    DoneImp c0 (cs.set i x) := by
  intro p hp
  rcases List.mem_or_eq_of_mem_set hp with h | h
  · exact hdi _ h
  · subst h
    exact hx

theorem DoneImp_of_NoneDone {U : Type} {c0 : ClientObj U}
    {cs : List (Config × CallerPhase U)} (hnd : NoneDone cs) : DoneImp c0 cs := by
  intro p hp cl hcl
  have h := hnd _ hp
  rw [hcl] at h
  simp [CallerPhase.isDone] at h

/-- Branch equations of `stepSys` and its two sections. -/
theorem stepSys_none {U : Type} (parse : String → Option U) (st : SysState U)
    (i : Nat) (h : st.callers.get? i = none) : stepSys parse st i = st := by
  unfold stepSys
  rw [h]

theorem stepSys_start {U : Type} (parse : String → Option U) (st : SysState U)
    (i : Nat) (config : Config)
    (hget : st.callers.get? i = some (config, CallerPhase.start)) :
    stepSys parse st i = stepRead st i config := by
  unfold stepSys
  rw [hget]

theorem stepSys_waiting {U : Type} (parse : String → Option U) (st : SysState U)
    (i : Nat) (config : Config)
    (hget : st.callers.get? i = some (config, CallerPhase.waitingWrite)) :
    stepSys parse st i = stepWrite parse st i config := by
  unfold stepSys
  rw [hget]

theorem stepSys_done {U : Type} (parse : String → Option U) (st : SysState U)
    (i : Nat) (config : Config) (c : ClientObj U)
    (hget : st.callers.get? i = some (config, CallerPhase.done c)) :
    stepSys parse st i = st := by
  unfold stepSys
  rw [hget]

theorem stepRead_hit {U : Type} (st : SysState U) (i : Nat) (config : Config)
    (c : ClientObj U)
    (hlook : findClient st.mgr.clients config.getFingerprint = some c) :
    stepRead st i config =
      { st with callers := st.callers.set i (config, CallerPhase.done c) } := by
  unfold stepRead
  rw [hlook]

theorem stepRead_miss {U : Type} (st : SysState U) (i : Nat) (config : Config)
    (hlook : findClient st.mgr.clients config.getFingerprint = none) :
    stepRead st i config =
      { st with callers := st.callers.set i (config, CallerPhase.waitingWrite) } := by
  unfold stepRead
  rw [hlook]

theorem stepWrite_hit {U : Type} (parse : String → Option U) (st : SysState U)
    (i : Nat) (config : Config) (c : ClientObj U)
    (hlook : findClient st.mgr.clients config.getFingerprint = some c) :
    stepWrite parse st i config =
      { st with callers := st.callers.set i (config, CallerPhase.done c) } := by
  unfold stepWrite
  rw [hlook]

theorem stepWrite_build {U : Type} (parse : String → Option U) (st : SysState U)
    (i : Nat) (config : Config)
    (hlook : findClient st.mgr.clients config.getFingerprint = none) :
    stepWrite parse st i config =
      { mgr := ⟨(config.getFingerprint, (buildClient parse config st.mgr.nextId).1) ::
          st.mgr.clients, st.mgr.nextId + 1⟩
        callers := st.callers.set i
          (config, CallerPhase.done (buildClient parse config st.mgr.nextId).1)
        builds := st.builds + 1 } := by
  unfold stepWrite
  rw [hlook]

/-- One interleaved step preserves the single-construction invariant. -/
theorem invC1_step {U : Type} (parse : String → Option U) (f : String)
    (st : SysState U) (i : Nat) (h : InvC1 f st) : InvC1 f (stepSys parse st i) := by
  obtain ⟨hfp, hcase⟩ := h
  cases hget : st.callers.get? i with
  | none => rw [stepSys_none parse st i hget]; exact ⟨hfp, hcase⟩
  | some p =>
    obtain ⟨config, phase⟩ := p
    have hmem : (config, phase) ∈ st.callers := List.get?_mem hget
    have hcfg : Config.getFingerprint config = f := hfp (config, phase) hmem
    cases phase with
    | start =>
      rw [stepSys_start parse st i config hget]
      cases hlook : findClient st.mgr.clients config.getFingerprint with
      | some c =>
        rw [stepRead_hit st i config c hlook]
        rw [hcfg] at hlook
        rcases hcase with ⟨hn, _, _⟩ | ⟨c0, hfc, hb, hdi⟩
        · rw [hn] at hlook
          cases hlook
        · have hcc0 : c = c0 := by
            rw [hlook] at hfc
            exact Option.some.inj hfc
          exact ⟨AllFp_set hfp hget,
            Or.inr ⟨c0, hfc, hb, DoneImp_set hdi (fun cl hcl => by
              have hic := CallerPhase.done.inj hcl
              rw [← hic, hcc0])⟩⟩
      | none =>
        rw [stepRead_miss st i config hlook]
        rw [hcfg] at hlook
        rcases hcase with ⟨hn, hb, hnd⟩ | ⟨c0, hfc, _, _⟩
        · exact ⟨AllFp_set hfp hget, Or.inl ⟨hn, hb, NoneDone_set hnd rfl⟩⟩
        · rw [hfc] at hlook
          cases hlook
    | waitingWrite =>
      rw [stepSys_waiting parse st i config hget]
      cases hlook : findClient st.mgr.clients config.getFingerprint with
      | some c =>
        rw [stepWrite_hit parse st i config c hlook]
        rw [hcfg] at hlook
        rcases hcase with ⟨hn, _, _⟩ | ⟨c0, hfc, hb, hdi⟩
        · rw [hn] at hlook
          cases hlook
        · have hcc0 : c = c0 := by
            rw [hlook] at hfc
            exact Option.some.inj hfc
          exact ⟨AllFp_set hfp hget,
            Or.inr ⟨c0, hfc, hb, DoneImp_set hdi (fun cl hcl => by
              have hic := CallerPhase.done.inj hcl
              rw [← hic, hcc0])⟩⟩
      | none =>
        rw [stepWrite_build parse st i config hlook]
        rw [hcfg] at hlook
        rcases hcase with ⟨hn, hb, hnd⟩ | ⟨c0, hfc, _, _⟩
        · refine ⟨AllFp_set hfp hget,
            Or.inr ⟨(buildClient parse config st.mgr.nextId).1, ?_, ?_, ?_⟩⟩
          · show findClient ((config.getFingerprint, _) :: st.mgr.clients) f = _
            rw [hcfg]
            exact findClient_cons_self _ _ _
          · show st.builds + 1 = 1
            omega
          · exact DoneImp_set (DoneImp_of_NoneDone hnd)
              (fun cl hcl => (CallerPhase.done.inj hcl).symm)
        · rw [hfc] at hlook
          cases hlook
    | done c => rw [stepSys_done parse st i config c hget]; exact ⟨hfp, hcase⟩

theorem invC1_run {U : Type} (parse : String → Option U) (f : String) :
    ∀ (sched : List Nat) (st : SysState U), InvC1 f st →
      InvC1 f (runSys parse st sched) := by
  intro sched
  induction sched with
  | nil => exact fun st h => h
  | cons i rest ih =>
    intro st h
    exact ih _ (invC1_step parse f st i h)

theorem stepSys_callers_length {U : Type} (parse : String → Option U)
    (st : SysState U) (i : Nat) :
    (stepSys parse st i).callers.length = st.callers.length := by
  cases hget : st.callers.get? i with
  | none => rw [stepSys_none parse st i hget]
  | some p =>
    obtain ⟨config, phase⟩ := p
    cases phase with
    | start =>
      rw [stepSys_start parse st i config hget]
      cases hlook : findClient st.mgr.clients config.getFingerprint with
      | some c => rw [stepRead_hit st i config c hlook]; simp
      | none => rw [stepRead_miss st i config hlook]; simp
    | waitingWrite =>
      rw [stepSys_waiting parse st i config hget]
      cases hlook : findClient st.mgr.clients config.getFingerprint with
      | some c => rw [stepWrite_hit parse st i config c hlook]; simp
      | none => rw [stepWrite_build parse st i config hlook]; simp
    | done c => rw [stepSys_done parse st i config c hget]

theorem runSys_callers_length {U : Type} (parse : String → Option U) :
    ∀ (sched : List Nat) (st : SysState U),
      (runSys parse st sched).callers.length = st.callers.length := by
  intro sched
  induction sched with
  | nil => exact fun st => rfl
  | cons i rest ih =>
    intro st
    rw [show runSys parse st (i :: rest) = runSys parse (stepSys parse st i) rest
      from rfl, ih, stepSys_callers_length]

theorem invC1_init {U : Type} (m0 : ManagerState U) (cfgs : List Config) (f : String)
    (hfp : ∀ c ∈ cfgs, Config.getFingerprint c = f)
    (hnone : findClient m0.clients f = none) :
    InvC1 f (initSys m0 cfgs) := by
  refine ⟨?_, Or.inl ⟨hnone, rfl, ?_⟩⟩
  · intro p hp
    simp only [initSys, List.mem_map] at hp
    obtain ⟨c, hc, rfl⟩ := hp
    exact hfp c hc
  · intro p hp
    simp only [initSys, List.mem_map] at hp
    obtain ⟨c, hc, rfl⟩ := hp
    rfl

theorem getClient_second_call {U : Type} (parse : String → Option U)
    (m : ManagerState U) (c : Config) :
    (getClient parse (getClient parse m c).2 c).1.client =
      (getClient parse m c).1.client ∧
    (getClient parse (getClient parse m c).2 c).1.built = false := by
  have hpost := getClient_post_lookup parse m c
  rw [getClient_hit parse _ c _ hpost]
  exact ⟨rfl, rfl⟩

/-- C1: for any number of concurrent callers invoking `GetClient` with
configurations that produce equal fingerprints — modelled as an arbitrary
interleaving (`runSys`) of each caller's two atomic lock-protected
sections — if the cache does not yet hold the fingerprint and every
caller finishes, exactly one client construction occurs and every caller
receives the same client instance. -/
theorem claim_C1 {U : Type} (parse : String → Option U) (m0 : ManagerState U)
    (cfgs : List Config) (f : String) (sched : List Nat)
    (hfp : ∀ c ∈ cfgs, Config.getFingerprint c = f)
    (hnone : findClient m0.clients f = none)
    (hne : cfgs ≠ [])
    (hdone : ∀ p ∈ (runSys parse (initSys m0 cfgs) sched).callers,
      p.2.isDone = true) :
    (runSys parse (initSys m0 cfgs) sched).builds = 1 ∧
    ∃ c0 : ClientObj U, ∀ p ∈ (runSys parse (initSys m0 cfgs) sched).callers,
      p.2 = CallerPhase.done c0 := by
  obtain ⟨_, hcase⟩ := invC1_run parse f sched _ (invC1_init m0 cfgs f hfp hnone)
  have hlen : (runSys parse (initSys m0 cfgs) sched).callers.length = cfgs.length := by
    rw [runSys_callers_length]
    simp [initSys]
  have hnonempty : (runSys parse (initSys m0 cfgs) sched).callers ≠ [] := by
    intro h0
    rw [h0] at hlen
    cases cfgs with
    | nil => exact hne rfl
    | cons a l => simp at hlen
  obtain ⟨p0, hp0⟩ := List.exists_mem_of_ne_nil _ hnonempty
  rcases hcase with ⟨_, _, hnd⟩ | ⟨c0, _, hb, hdi⟩
  · have h1 := hnd _ hp0
    have h2 := hdone _ hp0
    rw [h1] at h2
    cases h2
  · refine ⟨hb, c0, ?_⟩
    intro p hp
    have hd := hdone _ hp
    cases hph : p.2 with
    | start =>
      rw [hph] at hd
      exact absurd hd (by simp [CallerPhase.isDone])
    | waitingWrite =>
      rw [hph] at hd
      exact absurd hd (by simp [CallerPhase.isDone])
    | done cl =>
      rw [hdi _ hp cl hph]

/-- Witness for C1: two callers with the scenario configuration, schedule
read-check / write-section of caller 0, then read-check of caller 1. -/
theorem claim_C1_witness :
    ((∀ c ∈ [cfgScenario, cfgScenario],
        Config.getFingerprint c = cfgScenario.getFingerprint) ∧
      findClient (newHTTPClientManager Unit).clients cfgScenario.getFingerprint =
        none ∧
      [cfgScenario, cfgScenario] ≠ [] ∧
      (∀ p ∈ (runSys parseNone (initSys (newHTTPClientManager Unit)
          [cfgScenario, cfgScenario]) [0, 0, 1]).callers, p.2.isDone = true)) ∧
    ((runSys parseNone (initSys (newHTTPClientManager Unit)
        [cfgScenario, cfgScenario]) [0, 0, 1]).builds = 1 ∧
      ∃ c0 : ClientObj Unit,
        ∀ p ∈ (runSys parseNone (initSys (newHTTPClientManager Unit)
          [cfgScenario, cfgScenario]) [0, 0, 1]).callers,
          p.2 = CallerPhase.done c0) :=
  ⟨⟨by decide, by decide, by decide, by decide⟩,
    claim_C1 parseNone (newHTTPClientManager Unit) [cfgScenario, cfgScenario]
      cfgScenario.getFingerprint [0, 0, 1] (by decide) (by decide) (by decide)
      (by decide)⟩

/-- C2: `GetClient` called twice sequentially with the same configuration
returns the identical client instance with no second construction; the
scenario configuration (connect 15s, request 600s, idle 120s, no proxy)
twice hits the cache on the second call, and changing the idle timeout to
121s gives a distinct fingerprint and a second construction. -/
theorem claim_C2 :
    (∀ (U : Type) (parse : String → Option U) (m : ManagerState U) (c : Config),
      (getClient parse (getClient parse m c).2 c).1.client =
        (getClient parse m c).1.client ∧
      (getClient parse (getClient parse m c).2 c).1.built = false) ∧
    ((getClient parseNone (newHTTPClientManager Unit) cfgScenario).1.built = true ∧
      (getClient parseNone
        (getClient parseNone (newHTTPClientManager Unit) cfgScenario).2
        cfgScenario).1.built = false ∧
      (getClient parseNone
        (getClient parseNone (newHTTPClientManager Unit) cfgScenario).2
        cfgScenario).1.client =
        (getClient parseNone (newHTTPClientManager Unit) cfgScenario).1.client ∧
      Config.getFingerprint cfgScenario121 ≠ Config.getFingerprint cfgScenario ∧
      (getClient parseNone
        (getClient parseNone
          (getClient parseNone (newHTTPClientManager Unit) cfgScenario).2
          cfgScenario).2
        cfgScenario121).1.built = true) :=
  ⟨fun U parse m c => getClient_second_call parse m c,
    by refine ⟨by decide, by decide, by decide, by decide, by decide⟩⟩

/-- C7: `GetClient` is total — for every configuration (including any
malformed proxy URL, i.e. any behaviour of `parse`) it returns a client,
and that client is cached under the configuration's fingerprint; there is
no error outcome. -/
theorem claim_C7 {U : Type} (parse : String → Option U) (m : ManagerState U)
    (c : Config) :
    ∃ (r : CallResult U) (m' : ManagerState U),
      getClient parse m c = (r, m') ∧
      findClient m'.clients c.getFingerprint = some r.client := by
  exact ⟨(getClient parse m c).1, (getClient parse m c).2, rfl,
    getClient_post_lookup parse m c⟩

/-- C8: the fingerprint→client map is append-only — any `GetClient` call
leaves every key's binding unchanged except possibly the computed
fingerprint, which can only go from absent to the newly returned client;
at most one entry is added. -/
theorem claim_C8 {U : Type} (parse : String → Option U) (m : ManagerState U)
    (c : Config) (k : String) :
    (findClient ((getClient parse m c).2).clients k = findClient m.clients k ∨
      (k = c.getFingerprint ∧ findClient m.clients k = none ∧
        findClient ((getClient parse m c).2).clients k =
          some ((getClient parse m c).1.client))) ∧
    ((getClient parse m c).2).clients.length ≤ m.clients.length + 1 := by
  cases h : findClient m.clients c.getFingerprint with
  | some cl =>
    rw [getClient_hit parse m c cl h]
    exact ⟨Or.inl rfl, Nat.le_succ _⟩
  | none =>
    rw [getClient_miss parse m c h]
    constructor
    · by_cases hk : c.getFingerprint = k
      · subst hk
        exact Or.inr ⟨rfl, h, findClient_cons_self _ _ _⟩
      · left
        show findClient ((c.getFingerprint, _) :: m.clients) k = _
        simp [findClient, hk]
    · simp

theorem countProxyWarn_append (a b : List Warning) :
    countProxyWarn (a ++ b) = countProxyWarn a + countProxyWarn b :=
  List.countP_append _ _ _

theorem countTLSWarn_append (a b : List Warning) :
    countTLSWarn (a ++ b) = countTLSWarn a + countTLSWarn b :=
  List.countP_append _ _ _

/-- Characterization of the miss-path construction: the transport fields,
the returned client, and the warnings emitted, as functions of the
configuration. -/
theorem buildClient_spec {U : Type} (parse : String → Option U) (c : Config)
    (id : Nat) :
    (buildClient parse c id).1.id = id ∧
    (buildClient parse c id).1.Timeout = c.RequestTimeout ∧
    (buildClient parse c id).1.Transport.TLSClientConfig =
      (if c.ProxyTLSSkipVerify then some ⟨true⟩ else none) ∧
    (buildClient parse c id).1.Transport.Proxy =
      (if c.ProxyURL = "" then ProxyMode.fromEnvironment
        else match parse c.ProxyURL with
          | some u => ProxyMode.url u
          | none => ProxyMode.fromEnvironment) ∧
    (buildClient parse c id).2 =
      (if c.ProxyTLSSkipVerify then [Warning.proxyTLS] else []) ++
      (if c.ProxyURL = "" then []
        else match parse c.ProxyURL with
          | some _ => []
          | none => [Warning.invalidProxyURL c.ProxyURL]) := by
  by_cases htls : c.ProxyTLSSkipVerify <;> by_cases hurl : c.ProxyURL = ""
  · simp [buildClient, htls, hurl]
  · cases hp : parse c.ProxyURL <;> simp [buildClient, htls, hurl, hp]
  · simp [buildClient, htls, hurl]
  · cases hp : parse c.ProxyURL <;> simp [buildClient, htls, hurl, hp]

/-- C9: the fingerprint function is deterministic — it is a pure function
of the fourteen field values of the configuration (memory identity,
process state and randomness do not exist in its inputs), and evaluating
it twice yields identical strings. -/
theorem claim_C9 (c1 c2 : Config)
    (h1 : c1.ConnectTimeout = c2.ConnectTimeout)
    (h2 : c1.RequestTimeout = c2.RequestTimeout)
    (h3 : c1.IdleConnTimeout = c2.IdleConnTimeout)
    (h4 : c1.MaxIdleConns = c2.MaxIdleConns)
    (h5 : c1.MaxIdleConnsPerHost = c2.MaxIdleConnsPerHost)
    (h6 : c1.ResponseHeaderTimeout = c2.ResponseHeaderTimeout)
    (h7 : c1.DisableCompression = c2.DisableCompression)
    (h8 : c1.WriteBufferSize = c2.WriteBufferSize)
    (h9 : c1.ReadBufferSize = c2.ReadBufferSize)
    (h10 : c1.ForceAttemptHTTP2 = c2.ForceAttemptHTTP2)
    (h11 : c1.TLSHandshakeTimeout = c2.TLSHandshakeTimeout)
    (h12 : c1.ExpectContinueTimeout = c2.ExpectContinueTimeout)
    (h13 : c1.ProxyURL = c2.ProxyURL)
    (h14 : c1.ProxyTLSSkipVerify = c2.ProxyTLSSkipVerify) :
    Config.getFingerprint c1 = Config.getFingerprint c2 ∧
    Config.getFingerprint c1 = Config.getFingerprint c1 := by
  refine ⟨?_, rfl⟩
  rw [getFingerprint_eq_iff]
  exact fingerChars_congr (by rw [h1]) (by rw [h2]) (by rw [h3]) h4 h5 (by rw [h6])
    h7 h8 h9 h10 (by rw [h11]) (by rw [h12]) h13 h14

/-- Witness for C9 at the scenario configuration. -/
theorem claim_C9_witness :
    cfgScenario.ConnectTimeout = cfgScenario.ConnectTimeout ∧
    (Config.getFingerprint cfgScenario = Config.getFingerprint cfgScenario ∧
      Config.getFingerprint cfgScenario = Config.getFingerprint cfgScenario) :=
  ⟨rfl, claim_C9 cfgScenario cfgScenario rfl rfl rfl rfl rfl rfl rfl rfl rfl rfl
    rfl rfl rfl rfl⟩

/-- C5: on a cache miss, the proxy resolution of `GetClient` follows the
exact case split of lines 98–109 — a parsable non-empty proxy URL pins
the transport to it with no proxy warning, an unparsable non-empty one
falls back to environment resolution with exactly one warning naming the
offending value and the call still succeeding, and an empty one uses
environment resolution with no warning at all (when the skip-verify flag
is also unset). -/
theorem claim_C5 {U : Type} (parse : String → Option U) (m : ManagerState U)
    (c : Config) (hmiss : findClient m.clients c.getFingerprint = none) :
    (c.ProxyURL ≠ "" → ∀ u, parse c.ProxyURL = some u →
      (getClient parse m c).1.client.Transport.Proxy = ProxyMode.url u ∧
      countProxyWarn (getClient parse m c).1.warnings = 0) ∧
    (c.ProxyURL ≠ "" → parse c.ProxyURL = none →
      (getClient parse m c).1.client.Transport.Proxy = ProxyMode.fromEnvironment ∧
      countProxyWarn (getClient parse m c).1.warnings = 1 ∧
      Warning.invalidProxyURL c.ProxyURL ∈ (getClient parse m c).1.warnings ∧
      (getClient parse m c).1.built = true) ∧
    (c.ProxyURL = "" →
      (getClient parse m c).1.client.Transport.Proxy = ProxyMode.fromEnvironment ∧
      countProxyWarn (getClient parse m c).1.warnings = 0 ∧
      (c.ProxyTLSSkipVerify = false → (getClient parse m c).1.warnings = [])) := by
  obtain ⟨_, _, _, hproxy, hwarn⟩ := buildClient_spec parse c m.nextId
  rw [getClient_miss parse m c hmiss]
  refine ⟨?_, ?_, ?_⟩
  · intro hne u hp
    constructor
    · show (buildClient parse c m.nextId).1.Transport.Proxy = _
      rw [hproxy]
      simp [hne, hp]
    · show countProxyWarn (buildClient parse c m.nextId).2 = 0
      rw [hwarn, countProxyWarn_append]
      cases htls : c.ProxyTLSSkipVerify <;>
        simp [hne, hp, htls, countProxyWarn]
  · intro hne hp
    refine ⟨?_, ?_, ?_, rfl⟩
    · show (buildClient parse c m.nextId).1.Transport.Proxy = _
      rw [hproxy]
      simp [hne, hp]
    · show countProxyWarn (buildClient parse c m.nextId).2 = 1
      rw [hwarn, countProxyWarn_append]
      cases htls : c.ProxyTLSSkipVerify <;>
        simp [hne, hp, htls, countProxyWarn]
    · show Warning.invalidProxyURL c.ProxyURL ∈ (buildClient parse c m.nextId).2
      rw [hwarn]
      simp [hne, hp]
  · intro hurl
    refine ⟨?_, ?_, ?_⟩
    · show (buildClient parse c m.nextId).1.Transport.Proxy = _
      rw [hproxy]
      simp [hurl]
    · show countProxyWarn (buildClient parse c m.nextId).2 = 0
      rw [hwarn, countProxyWarn_append]
      cases htls : c.ProxyTLSSkipVerify <;>
        simp [hurl, htls, countProxyWarn]
    · intro htls
      show (buildClient parse c m.nextId).2 = []
      rw [hwarn]
      simp [hurl, htls]

/-- Witness for C5: the spec's malformed proxy address on a fresh
manager, with a `url.Parse` oracle that rejects it. -/
theorem claim_C5_witness :
    findClient (newHTTPClientManager Unit).clients cfgBadProxy.getFingerprint =
      none ∧
    (cfgBadProxy.ProxyURL ≠ "" → parseNone cfgBadProxy.ProxyURL = none →
      (getClient parseNone (newHTTPClientManager Unit) cfgBadProxy).1.client.Transport.Proxy =
        ProxyMode.fromEnvironment ∧
      countProxyWarn
        (getClient parseNone (newHTTPClientManager Unit) cfgBadProxy).1.warnings = 1 ∧
      Warning.invalidProxyURL cfgBadProxy.ProxyURL ∈
        (getClient parseNone (newHTTPClientManager Unit) cfgBadProxy).1.warnings ∧
      (getClient parseNone (newHTTPClientManager Unit) cfgBadProxy).1.built = true) :=
  ⟨by decide,
    (claim_C5 parseNone (newHTTPClientManager Unit) cfgBadProxy (by decide)).2.1⟩

/-- C6: whenever a client is constructed (miss path) with the skip-verify
flag set, the transport's TLS client configuration disables certificate
verification (hence in particular for the proxy leg) and exactly one
skip-verify warning is emitted by that construction; with the flag unset
the TLS client configuration is left `nil` (verification enabled) and no
such warning is emitted. -/
theorem claim_C6 {U : Type} (parse : String → Option U) (m : ManagerState U)
    (c : Config) (hmiss : findClient m.clients c.getFingerprint = none) :
    (c.ProxyTLSSkipVerify = true →
      (getClient parse m c).1.client.Transport.TLSClientConfig =
        some { InsecureSkipVerify := true } ∧
      countTLSWarn (getClient parse m c).1.warnings = 1) ∧
    (c.ProxyTLSSkipVerify = false →
      (getClient parse m c).1.client.Transport.TLSClientConfig = none ∧
      countTLSWarn (getClient parse m c).1.warnings = 0) := by
  obtain ⟨_, _, htlsc, _, hwarn⟩ := buildClient_spec parse c m.nextId
  rw [getClient_miss parse m c hmiss]
  constructor
  · intro htls
    constructor
    · show (buildClient parse c m.nextId).1.Transport.TLSClientConfig = _
      rw [htlsc]
      simp [htls]
    · show countTLSWarn (buildClient parse c m.nextId).2 = 1
      rw [hwarn, countTLSWarn_append]
      by_cases hurl : c.ProxyURL = ""
      · simp [hurl, htls, countTLSWarn]
      · cases hp : parse c.ProxyURL <;> simp [hurl, htls, hp, countTLSWarn]
  · intro htls
    constructor
    · show (buildClient parse c m.nextId).1.Transport.TLSClientConfig = _
      rw [htlsc]
      simp [htls]
    · show countTLSWarn (buildClient parse c m.nextId).2 = 0
      rw [hwarn, countTLSWarn_append]
      by_cases hurl : c.ProxyURL = ""
      · simp [hurl, htls, countTLSWarn]
      · cases hp : parse c.ProxyURL <;> simp [hurl, htls, hp, countTLSWarn]

/-- Witness for C6: skip-verify enabled on a fresh manager. -/
theorem claim_C6_witness :
    findClient (newHTTPClientManager Unit).clients cfgSkip.getFingerprint = none ∧
    cfgSkip.ProxyTLSSkipVerify = true ∧
    ((getClient parseNone (newHTTPClientManager Unit) cfgSkip).1.client.Transport.TLSClientConfig =
      some { InsecureSkipVerify := true } ∧
      countTLSWarn
        (getClient parseNone (newHTTPClientManager Unit) cfgSkip).1.warnings = 1) :=
  ⟨by decide, by decide,
    (claim_C6 parseNone (newHTTPClientManager Unit) cfgSkip (by decide)).1 (by decide)⟩

/-- C10: the skip-verify flag sets `Transport.TLSClientConfig`, the
transport-wide TLS setting of the constructed client (there is no
proxy-scoped TLS field in the code), so under net/http semantics certificate
verification is disabled for every TLS connection the client makes, not
only the proxy leg. -/
theorem claim_C10 {U : Type} (parse : String → Option U) (m : ManagerState U)
    (c : Config) (hmiss : findClient m.clients c.getFingerprint = none)
    (htls : c.ProxyTLSSkipVerify = true) :
    (getClient parse m c).1.client.Transport.TLSClientConfig =
      some { InsecureSkipVerify := true } := by
  obtain ⟨_, _, htlsc, _, _⟩ := buildClient_spec parse c m.nextId
  rw [getClient_miss parse m c hmiss]
  show (buildClient parse c m.nextId).1.Transport.TLSClientConfig = _
  rw [htlsc]
  simp [htls]

/-- Witness for C10. -/
theorem claim_C10_witness :
    findClient (newHTTPClientManager Unit).clients cfgSkip.getFingerprint = none ∧
    cfgSkip.ProxyTLSSkipVerify = true ∧
    (getClient parseAll (newHTTPClientManager Unit) cfgSkip).1.client.Transport.TLSClientConfig =
      some { InsecureSkipVerify := true } :=
  ⟨by decide, by decide,
    claim_C10 parseAll (newHTTPClientManager Unit) cfgSkip (by decide) (by decide)⟩

/-- Counterexample to C3 as stated: two configurations identical except in
the sub-second components of the idle timeout (0.4s vs 0.6s — both have
whole-second part 0) receive different fingerprints, because the
`Seconds()`/`%.0f` pipeline rounds to the nearest second (0.4s prints `0`,
0.6s prints `1`) rather than truncating. -/
theorem claim_C3_counterexample :
    cfgSubA.IdleConnTimeout / 1000000000 = cfgSubB.IdleConnTimeout / 1000000000 ∧
    cfgSubA.IdleConnTimeout ≠ cfgSubB.IdleConnTimeout ∧
    cfgSubA.ConnectTimeout = cfgSubB.ConnectTimeout ∧
    cfgSubA.RequestTimeout = cfgSubB.RequestTimeout ∧
    cfgSubA.MaxIdleConns = cfgSubB.MaxIdleConns ∧
    cfgSubA.MaxIdleConnsPerHost = cfgSubB.MaxIdleConnsPerHost ∧
    cfgSubA.ResponseHeaderTimeout = cfgSubB.ResponseHeaderTimeout ∧
    cfgSubA.DisableCompression = cfgSubB.DisableCompression ∧
    cfgSubA.WriteBufferSize = cfgSubB.WriteBufferSize ∧
    cfgSubA.ReadBufferSize = cfgSubB.ReadBufferSize ∧
    cfgSubA.ForceAttemptHTTP2 = cfgSubB.ForceAttemptHTTP2 ∧
    cfgSubA.TLSHandshakeTimeout = cfgSubB.TLSHandshakeTimeout ∧
    cfgSubA.ExpectContinueTimeout = cfgSubB.ExpectContinueTimeout ∧
    cfgSubA.ProxyURL = cfgSubB.ProxyURL ∧
    cfgSubA.ProxyTLSSkipVerify = cfgSubB.ProxyTLSSkipVerify ∧
    Config.getFingerprint cfgSubA ≠ Config.getFingerprint cfgSubB := by
  decide

/-- C3 as amended: configurations that agree on all non-duration fields
and whose (nonnegative, `int64`-representable) duration fields print the
same whole second under Go's `Seconds()`/`%.0f` double rounding through
`float64` (`roundSec`, round half to even at each stage) receive equal
fingerprints; sub-second differences collapse exactly when they do not
move that printed value. -/
theorem claim_C3 (c1 c2 : Config)
    (nct1 : 0 ≤ c1.ConnectTimeout) (nct2 : 0 ≤ c2.ConnectTimeout)
    (nrt1 : 0 ≤ c1.RequestTimeout) (nrt2 : 0 ≤ c2.RequestTimeout)
    (nit1 : 0 ≤ c1.IdleConnTimeout) (nit2 : 0 ≤ c2.IdleConnTimeout)
    (nrh1 : 0 ≤ c1.ResponseHeaderTimeout) (nrh2 : 0 ≤ c2.ResponseHeaderTimeout)
    (ntl1 : 0 ≤ c1.TLSHandshakeTimeout) (ntl2 : 0 ≤ c2.TLSHandshakeTimeout)
    (nec1 : 0 ≤ c1.ExpectContinueTimeout) (nec2 : 0 ≤ c2.ExpectContinueTimeout)
    (bct1 : c1.ConnectTimeout < int64Bound) (bct2 : c2.ConnectTimeout < int64Bound)
    (brt1 : c1.RequestTimeout < int64Bound) (brt2 : c2.RequestTimeout < int64Bound)
    (bit1 : c1.IdleConnTimeout < int64Bound) (bit2 : c2.IdleConnTimeout < int64Bound)
    (brh1 : c1.ResponseHeaderTimeout < int64Bound)
    (brh2 : c2.ResponseHeaderTimeout < int64Bound)
    (btl1 : c1.TLSHandshakeTimeout < int64Bound)
    (btl2 : c2.TLSHandshakeTimeout < int64Bound)
    (bec1 : c1.ExpectContinueTimeout < int64Bound)
    (bec2 : c2.ExpectContinueTimeout < int64Bound)
    (r1 : roundSec c1.ConnectTimeout = roundSec c2.ConnectTimeout)
    (r2 : roundSec c1.RequestTimeout = roundSec c2.RequestTimeout)
    (r3 : roundSec c1.IdleConnTimeout = roundSec c2.IdleConnTimeout)
    (r6 : roundSec c1.ResponseHeaderTimeout = roundSec c2.ResponseHeaderTimeout)
    (r11 : roundSec c1.TLSHandshakeTimeout = roundSec c2.TLSHandshakeTimeout)
    (r12 : roundSec c1.ExpectContinueTimeout = roundSec c2.ExpectContinueTimeout)
    (h4 : c1.MaxIdleConns = c2.MaxIdleConns)
    (h5 : c1.MaxIdleConnsPerHost = c2.MaxIdleConnsPerHost)
    (h7 : c1.DisableCompression = c2.DisableCompression)
    (h8 : c1.WriteBufferSize = c2.WriteBufferSize)
    (h9 : c1.ReadBufferSize = c2.ReadBufferSize)
    (h10 : c1.ForceAttemptHTTP2 = c2.ForceAttemptHTTP2)
    (h13 : c1.ProxyURL = c2.ProxyURL)
    (h14 : c1.ProxyTLSSkipVerify = c2.ProxyTLSSkipVerify) :
    Config.getFingerprint c1 = Config.getFingerprint c2 := by
  rw [getFingerprint_eq_iff]
  exact fingerChars_congr ((secChars_eq_iff_of_nonneg nct1 nct2).2 r1)
    ((secChars_eq_iff_of_nonneg nrt1 nrt2).2 r2)
    ((secChars_eq_iff_of_nonneg nit1 nit2).2 r3) h4 h5
    ((secChars_eq_iff_of_nonneg nrh1 nrh2).2 r6) h7 h8 h9 h10
    ((secChars_eq_iff_of_nonneg ntl1 ntl2).2 r11)
    ((secChars_eq_iff_of_nonneg nec1 nec2).2 r12) h13 h14

/-- Witness for the amended C3: 0.6s and 0.7s idle timeouts (both round
to 1s) collapse to the same fingerprint. -/
theorem claim_C3_witness :
    roundSec cfgSubB.IdleConnTimeout = roundSec cfgSubC.IdleConnTimeout ∧
    cfgSubB.IdleConnTimeout ≠ cfgSubC.IdleConnTimeout ∧
    Config.getFingerprint cfgSubB = Config.getFingerprint cfgSubC :=
  ⟨by decide, by decide,
    claim_C3 cfgSubB cfgSubC (by decide) (by decide) (by decide) (by decide)
      (by decide) (by decide) (by decide) (by decide) (by decide) (by decide)
      (by decide) (by decide) (by decide) (by decide) (by decide) (by decide)
      (by decide) (by decide) (by decide) (by decide) (by decide) (by decide)
      (by decide) (by decide) (by decide) (by decide) (by decide) (by decide)
      (by decide) (by decide) rfl rfl rfl rfl rfl rfl rfl rfl⟩

/-- Counterexample to C4 as stated: two configurations whose connect
timeouts differ by a full second (1.5s vs 2.5s — a difference at
whole-second granularity) nevertheless receive the same fingerprint,
because the `Seconds()`/`%.0f` pipeline prints both values as `2` (both
are exact in `float64` and both ties round to the even integer). -/
theorem claim_C4_counterexample :
    cfgHalfB.ConnectTimeout - cfgHalfA.ConnectTimeout = 1000000000 ∧
    cfgHalfA.ConnectTimeout ≠ cfgHalfB.ConnectTimeout ∧
    Config.getFingerprint cfgHalfA = Config.getFingerprint cfgHalfB := by
  decide

/-- C4 as amended: for configurations with nonnegative,
`int64`-representable duration fields, fingerprints are equal exactly when
the integer counts, booleans and the proxy URL string agree and every
duration field prints the same whole second under Go's `Seconds()`/`%.0f`
double rounding through `float64` (`roundSec`); equivalently, a difference
in any field that survives that printing (including any difference in the
proxy URL string, even one containing separator or tag text) yields
distinct fingerprints. -/
theorem claim_C4 (c1 c2 : Config)
    (nct1 : 0 ≤ c1.ConnectTimeout) (nct2 : 0 ≤ c2.ConnectTimeout)
    (nrt1 : 0 ≤ c1.RequestTimeout) (nrt2 : 0 ≤ c2.RequestTimeout)
    (nit1 : 0 ≤ c1.IdleConnTimeout) (nit2 : 0 ≤ c2.IdleConnTimeout)
    (nrh1 : 0 ≤ c1.ResponseHeaderTimeout) (nrh2 : 0 ≤ c2.ResponseHeaderTimeout)
    (ntl1 : 0 ≤ c1.TLSHandshakeTimeout) (ntl2 : 0 ≤ c2.TLSHandshakeTimeout)
    (nec1 : 0 ≤ c1.ExpectContinueTimeout) (nec2 : 0 ≤ c2.ExpectContinueTimeout)
    (bct1 : c1.ConnectTimeout < int64Bound) (bct2 : c2.ConnectTimeout < int64Bound)
    (brt1 : c1.RequestTimeout < int64Bound) (brt2 : c2.RequestTimeout < int64Bound)
    (bit1 : c1.IdleConnTimeout < int64Bound) (bit2 : c2.IdleConnTimeout < int64Bound)
    (brh1 : c1.ResponseHeaderTimeout < int64Bound)
    (brh2 : c2.ResponseHeaderTimeout < int64Bound)
    (btl1 : c1.TLSHandshakeTimeout < int64Bound)
    (btl2 : c2.TLSHandshakeTimeout < int64Bound)
    (bec1 : c1.ExpectContinueTimeout < int64Bound)
    (bec2 : c2.ExpectContinueTimeout < int64Bound) :
    Config.getFingerprint c1 = Config.getFingerprint c2 ↔
      (roundSec c1.ConnectTimeout = roundSec c2.ConnectTimeout ∧
        roundSec c1.RequestTimeout = roundSec c2.RequestTimeout ∧
        roundSec c1.IdleConnTimeout = roundSec c2.IdleConnTimeout ∧
        c1.MaxIdleConns = c2.MaxIdleConns ∧
        c1.MaxIdleConnsPerHost = c2.MaxIdleConnsPerHost ∧
        roundSec c1.ResponseHeaderTimeout = roundSec c2.ResponseHeaderTimeout ∧
        c1.DisableCompression = c2.DisableCompression ∧
        c1.WriteBufferSize = c2.WriteBufferSize ∧
        c1.ReadBufferSize = c2.ReadBufferSize ∧
        c1.ForceAttemptHTTP2 = c2.ForceAttemptHTTP2 ∧
        roundSec c1.TLSHandshakeTimeout = roundSec c2.TLSHandshakeTimeout ∧
        roundSec c1.ExpectContinueTimeout = roundSec c2.ExpectContinueTimeout ∧
        c1.ProxyURL = c2.ProxyURL ∧
        c1.ProxyTLSSkipVerify = c2.ProxyTLSSkipVerify) := by
  rw [getFingerprint_eq_iff]
  constructor
  · intro h
    obtain ⟨e1, e2, e3, e4, e5, e6, e7, e8, e9, e10, e11, e12, e13, e14⟩ :=
      fingerChars_parts h
    exact ⟨(secChars_eq_iff_of_nonneg nct1 nct2).1 e1,
      (secChars_eq_iff_of_nonneg nrt1 nrt2).1 e2,
      (secChars_eq_iff_of_nonneg nit1 nit2).1 e3, e4, e5,
      (secChars_eq_iff_of_nonneg nrh1 nrh2).1 e6, e7, e8, e9, e10,
      (secChars_eq_iff_of_nonneg ntl1 ntl2).1 e11,
      (secChars_eq_iff_of_nonneg nec1 nec2).1 e12, e13, e14⟩
  · rintro ⟨r1, r2, r3, h4, h5, r6, h7, h8, h9, h10, r11, r12, h13, h14⟩
    exact fingerChars_congr ((secChars_eq_iff_of_nonneg nct1 nct2).2 r1)
      ((secChars_eq_iff_of_nonneg nrt1 nrt2).2 r2)
      ((secChars_eq_iff_of_nonneg nit1 nit2).2 r3) h4 h5
      ((secChars_eq_iff_of_nonneg nrh1 nrh2).2 r6) h7 h8 h9 h10
      ((secChars_eq_iff_of_nonneg ntl1 ntl2).2 r11)
      ((secChars_eq_iff_of_nonneg nec1 nec2).2 r12) h13 h14

/-- Witness for the amended C4: a configuration whose proxy URL contains
separator and tag text is still discriminated from the scenario
configuration (via the right-to-left reading of the equivalence, their
fingerprints differ because the proxy strings differ). -/
theorem claim_C4_witness :
    (0 : Int) ≤ cfgScenario.ConnectTimeout ∧
    (Config.getFingerprint cfgScenario = Config.getFingerprint cfgTagProxy ↔
      (roundSec cfgScenario.ConnectTimeout = roundSec cfgTagProxy.ConnectTimeout ∧
        roundSec cfgScenario.RequestTimeout = roundSec cfgTagProxy.RequestTimeout ∧
        roundSec cfgScenario.IdleConnTimeout = roundSec cfgTagProxy.IdleConnTimeout ∧
        cfgScenario.MaxIdleConns = cfgTagProxy.MaxIdleConns ∧
        cfgScenario.MaxIdleConnsPerHost = cfgTagProxy.MaxIdleConnsPerHost ∧
        roundSec cfgScenario.ResponseHeaderTimeout =
          roundSec cfgTagProxy.ResponseHeaderTimeout ∧
        cfgScenario.DisableCompression = cfgTagProxy.DisableCompression ∧
        cfgScenario.WriteBufferSize = cfgTagProxy.WriteBufferSize ∧
        cfgScenario.ReadBufferSize = cfgTagProxy.ReadBufferSize ∧
        cfgScenario.ForceAttemptHTTP2 = cfgTagProxy.ForceAttemptHTTP2 ∧
        roundSec cfgScenario.TLSHandshakeTimeout =
          roundSec cfgTagProxy.TLSHandshakeTimeout ∧
        roundSec cfgScenario.ExpectContinueTimeout =
          roundSec cfgTagProxy.ExpectContinueTimeout ∧
        cfgScenario.ProxyURL = cfgTagProxy.ProxyURL ∧
        cfgScenario.ProxyTLSSkipVerify = cfgTagProxy.ProxyTLSSkipVerify)) :=
  ⟨by decide,
    claim_C4 cfgScenario cfgTagProxy (by decide) (by decide) (by decide) (by decide)
      (by decide) (by decide) (by decide) (by decide) (by decide) (by decide)
      (by decide) (by decide) (by decide) (by decide) (by decide) (by decide)
      (by decide) (by decide) (by decide) (by decide) (by decide) (by decide)
      (by decide) (by decide)⟩
